import Mathlib

/-!
Formal model of the replication core of hashicorp/consul-replicate.

The definitions below are a shallow embedding of the Go sources, mainly of
the Runner (runner file, `Runner.replicate`, `Runner.getStatus`,
`Runner.setStatus`, `Runner.statusPath`, `Runner.Start`, `Runner.Run`) and of
the CLI exit-code constants.  Go strings are modeled as Lean `String`; for
valid UTF-8 strings the rune-list view used here agrees with Go's byte-level
prefix and replace operations, because every Go helper used by the program
(`strings.HasPrefix`, `strings.TrimPrefix`, `strings.Replace`,
`strings.TrimRight`) only ever matches a whole valid-UTF-8 pattern, which can
never match in the middle of a multi-byte rune.  Machine integers
(`uint64` indices and flags) are modeled as `Nat`; the program performs no
arithmetic on them other than comparisons, so no wrap-around modeling is
needed.  Effects (Consul RPCs) are modeled by an environment record of
oracle results plus an emitted trace of KV operations.
-/

namespace ConsulReplicate

/-- Decidable equality for `Except`, used to evaluate concrete runs. -/
instance exceptDecEq {e a : Type} [DecidableEq e] [DecidableEq a] :
    DecidableEq (Except e a) := fun x y =>
  match x, y with
  | .error a1, .error a2 =>
    if h : a1 = a2 then .isTrue (congrArg Except.error h)
    else .isFalse (fun hc => h (Except.error.inj hc))
  | .ok a1, .ok a2 =>
    if h : a1 = a2 then .isTrue (congrArg Except.ok h)
    else .isFalse (fun hc => h (Except.ok.inj hc))
  | .error _, .ok _ => .isFalse (fun hc => Except.noConfusion hc)
  | .ok _, .error _ => .isFalse (fun hc => Except.noConfusion hc)

/-- Characters that the file avoids writing as literals. -/
def quoteChar : Char := Char.ofNat 34

/-- Backslash character. -/
def backslashChar : Char := Char.ofNat 92

/-- Opening curly brace character. -/
def lbraceChar : Char := Char.ofNat 123

/-- Closing curly brace character. -/
def rbraceChar : Char := Char.ofNat 125

/-- Go `strings.HasPrefix s pre`. -/
def goHasPref (s pre : String) : Bool :=
  pre.data.isPrefixOf s.data

/-- Go `strings.TrimPrefix s pre`: drops `pre` when it is a prefix of `s`,
otherwise returns `s` unchanged. -/
def goTrimPref (s pre : String) : String :=
  if pre.data.isPrefixOf s.data then String.mk (s.data.drop pre.data.length) else s

/-- Helper for `goReplaceAll`: repeatedly replaces the leftmost occurrence of
the non-empty pattern `old`, scanning left to right without overlap, exactly
like Go `strings.Replace(s, old, new, -1)`. -/
def replAllAux : Nat → List Char → List Char → List Char → List Char
  | 0, s, _, _ => s
  | _, [], _, _ => []
  | fuel + 1, c :: rest, old, new =>
    if old.isPrefixOf (c :: rest) then
      new ++ replAllAux fuel ((c :: rest).drop old.length) old new
    else
      c :: replAllAux fuel rest old new

/-- Go `strings.Replace(s, old, new, -1)`: replace all non-overlapping
occurrences of `old` by `new`; an empty `old` inserts `new` at every rune
boundary including both ends. -/
def goReplaceAll (s old new : String) : String :=
  if old.data.isEmpty then
    String.mk (new.data ++ (s.data.map (fun c => c :: new.data)).flatten)
  else
    String.mk (replAllAux s.data.length s.data old.data new.data)

/-- Go `strings.TrimRight(s, "/")`: removes all trailing slash characters. -/
def goTrimRightSlashes (s : String) : String :=
  String.mk ((s.data.reverse.dropWhile (fun c => c = '/')).reverse)

/-- Observed Consul KV pair, from consul-template's dependency package:
path, value bytes, flags, modify index and session id. -/
structure KeyPair where
  path : String
  value : String
  flags : Nat
  modifyIndex : Nat
  session : String
deriving DecidableEq, Repr

/-- The persisted replication status record (struct `Status` in the runner):
last replicated index plus the source and destination strings. -/
structure Status where
  lastReplicated : Nat
  source : String
  destination : String
deriving DecidableEq, Repr

/-- The zero `Status` value, Go `&Status` of an empty struct literal. -/
def freshStatus : Status := { lastReplicated := 0, source := "", destination := "" }

/-- A finalized prefix configuration: source prefix, source datacenter and
destination prefix. -/
structure PrefixConfig where
  source : String
  datacenter : String
  destination : String
deriving DecidableEq, Repr

/-- An exclude configuration: a source-side prefix string. -/
structure ExcludeConfig where
  source : String
deriving DecidableEq, Repr

/-! MD5, Go `crypto/md5`, used by `Runner.statusPath`.  Words are `Nat`
reduced modulo `2 ^ 32`. -/

/-- Reduce to a 32-bit word. -/
def w32 (n : Nat) : Nat := n % 4294967296

/-- 32-bit modular addition. -/
def wadd (a b : Nat) : Nat := w32 (a + b)

/-- 32-bit bitwise complement. -/
def wnot (a : Nat) : Nat := 4294967295 - w32 a

/-- 32-bit left rotation. -/
def wrotl (x s : Nat) : Nat :=
  w32 (Nat.lor (w32 (Nat.shiftLeft (w32 x) s)) (Nat.shiftRight (w32 x) (32 - s)))

/-- The 64 MD5 round constants, `floor(abs(sin(i+1)) * 2^32)`. -/
def md5K : List Nat :=
  [0xd76aa478, 0xe8c7b756, 0x242070db, 0xc1bdceee,
   0xf57c0faf, 0x4787c62a, 0xa8304613, 0xfd469501,
   0x698098d8, 0x8b44f7af, 0xffff5bb1, 0x895cd7be,
   0x6b901122, 0xfd987193, 0xa679438e, 0x49b40821,
   0xf61e2562, 0xc040b340, 0x265e5a51, 0xe9b6c7aa,
   0xd62f105d, 0x02441453, 0xd8a1e681, 0xe7d3fbc8,
   0x21e1cde6, 0xc33707d6, 0xf4d50d87, 0x455a14ed,
   0xa9e3e905, 0xfcefa3f8, 0x676f02d9, 0x8d2a4c8a,
   0xfffa3942, 0x8771f681, 0x6d9d6122, 0xfde5380c,
   0xa4beea44, 0x4bdecfa9, 0xf6bb4b60, 0xbebfbc70,
   0x289b7ec6, 0xeaa127fa, 0xd4ef3085, 0x04881d05,
   0xd9d4d039, 0xe6db99e5, 0x1fa27cf8, 0xc4ac5665,
   0xf4292244, 0x432aff97, 0xab9423a7, 0xfc93a039,
   0x655b59c3, 0x8f0ccc92, 0xffeff47d, 0x85845dd1,
   0x6fa87e4f, 0xfe2ce6e0, 0xa3014314, 0x4e0811a1,
   0xf7537e82, 0xbd3af235, 0x2ad7d2bb, 0xeb86d391]

/-- The 64 MD5 per-round left-rotation amounts. -/
def md5S : List Nat :=
  [7, 12, 17, 22, 7, 12, 17, 22, 7, 12, 17, 22, 7, 12, 17, 22,
   5, 9, 14, 20, 5, 9, 14, 20, 5, 9, 14, 20, 5, 9, 14, 20,
   4, 11, 16, 23, 4, 11, 16, 23, 4, 11, 16, 23, 4, 11, 16, 23,
   6, 10, 15, 21, 6, 10, 15, 21, 6, 10, 15, 21, 6, 10, 15, 21]

/-- MD5 round mixing function for round `i`. -/
def md5F (i b c d : Nat) : Nat :=
  if i < 16 then Nat.lor (Nat.land b c) (Nat.land (wnot b) d)
  else if i < 32 then Nat.lor (Nat.land d b) (Nat.land (wnot d) c)
  else if i < 48 then Nat.xor b (Nat.xor c d)
  else Nat.xor c (Nat.lor b (wnot d))

/-- MD5 message-word index for round `i`. -/
def md5G (i : Nat) : Nat :=
  if i < 16 then i
  else if i < 32 then (5 * i + 1) % 16
  else if i < 48 then (3 * i + 5) % 16
  else (7 * i) % 16

/-- Split a list of bytes into little-endian 32-bit words. -/
def leWords : List Nat → List Nat
  | b0 :: b1 :: b2 :: b3 :: rest =>
    (b0 + 256 * b1 + 65536 * b2 + 16777216 * b3) :: leWords rest
  | _ => []

/-- One MD5 round step on the register quadruple. -/
def md5Step (m : List Nat) (st : Nat × Nat × Nat × Nat) (i : Nat) : Nat × Nat × Nat × Nat :=
  let a := st.1
  let b := st.2.1
  let c := st.2.2.1
  let d := st.2.2.2
  let f := wadd (wadd (wadd (md5F i b c d) a) (md5K.getD i 0)) (m.getD (md5G i) 0)
  (d, wadd b (wrotl f (md5S.getD i 0)), b, c)

/-- Process one 64-byte chunk. -/
def md5Chunk (regs : Nat × Nat × Nat × Nat) (chunk : List Nat) : Nat × Nat × Nat × Nat :=
  let m := leWords chunk
  let r := (List.range 64).foldl (md5Step m) regs
  (wadd regs.1 r.1, wadd regs.2.1 r.2.1, wadd regs.2.2.1 r.2.2.1, wadd regs.2.2.2 r.2.2.2)

/-- Little-endian byte expansion of `n` to `count` bytes. -/
def leBytes (n : Nat) : Nat → List Nat
  | 0 => []
  | count + 1 => (n % 256) :: leBytes (n / 256) count

/-- MD5 padding: a 1 bit, zeros to 56 mod 64 bytes, then the 64-bit
little-endian bit length. -/
def md5Pad (msg : List Nat) : List Nat :=
  let z := (64 + 56 - ((msg.length + 1) % 64)) % 64
  msg ++ [128] ++ List.replicate z 0 ++ leBytes (8 * msg.length) 8

/-- Split into consecutive 64-byte chunks (fuel-driven, fuel bounds the
number of chunks). -/
def chunks64 : Nat → List Nat → List (List Nat)
  | 0, _ => []
  | _, [] => []
  | fuel + 1, l => l.take 64 :: chunks64 fuel (l.drop 64)

/-- The 16-byte MD5 digest of a byte sequence. -/
def md5Bytes (msg : List Nat) : List Nat :=
  let padded := md5Pad msg
  let r := (chunks64 padded.length padded).foldl md5Chunk
    (0x67452301, 0xefcdab89, 0x98badcfe, 0x10325476)
  leBytes r.1 4 ++ leBytes r.2.1 4 ++ leBytes r.2.2.1 4 ++ leBytes r.2.2.2 4

/-- Lowercase hexadecimal digit. -/
def hexDigit (n : Nat) : Char :=
  if n < 10 then Char.ofNat (48 + n) else Char.ofNat (87 + n)

/-- Two-character lowercase hex encoding of a byte. -/
def byteHex (b : Nat) : List Char := [hexDigit (b / 16), hexDigit (b % 16)]

/-- UTF-8 encoding of a unicode code point, as byte values. -/
def utf8Bytes (c : Nat) : List Nat :=
  if c < 128 then [c]
  else if c < 2048 then [192 + c / 64, 128 + c % 64]
  else if c < 65536 then [224 + c / 4096, 128 + (c / 64) % 64, 128 + c % 64]
  else [240 + c / 262144, 128 + (c / 4096) % 64, 128 + (c / 64) % 64, 128 + c % 64]

/-- The UTF-8 bytes of a string, as Go sees a `string`. -/
def strBytes (s : String) : List Nat :=
  (s.data.map (fun c => utf8Bytes c.toNat)).flatten

/-- Lowercase hex MD5 digest of a string, Go
`hex.EncodeToString(md5.Sum([]byte(s)))`. -/
def md5Hex (s : String) : String :=
  String.mk ((md5Bytes (strBytes s)).map byteHex).flatten

/-- The plain text hashed by `Runner.statusPath`:
`fmt.Sprintf("%s-%s", source, destination)`. -/
def statusPlain (pfx : PrefixConfig) : String :=
  pfx.source ++ "-" ++ pfx.destination

/-- Go `Runner.statusPath`: the status-dir with trailing slashes trimmed,
a slash, and the hex MD5 of `source ++ "-" ++ destination`. -/
def statusPath (statusDir : String) (pfx : PrefixConfig) : String :=
  goTrimRightSlashes statusDir ++ "/" ++ md5Hex (statusPlain pfx)

/-! JSON values and a parser, modeling Go `encoding/json` far enough to
decode the persisted `Status` record in `Runner.getStatus`. -/

/-- A parsed JSON value.  Numbers keep their literal text, as Go's decoder
does before converting to the target type. -/
inductive JVal where
  | jnull
  | jbool (b : Bool)
  | jnum (lit : String)
  | jstr (s : String)
  | jarr (elems : List JVal)
  | jobj (fields : List (String × JVal))

/-- JSON whitespace. -/
def isWsChar (c : Char) : Bool :=
  c = ' ' ∨ c = '\t' ∨ c = '\n' ∨ c = '\r'

/-- Skip leading JSON whitespace. -/
def skipWs (cs : List Char) : List Char := cs.dropWhile isWsChar

/-- Decimal digit test. -/
def isDigitChar (c : Char) : Bool := '0' ≤ c && c ≤ '9'

/-- Value of a hexadecimal digit. -/
def hexVal (c : Char) : Option Nat :=
  if isDigitChar c then some (c.toNat - 48)
  else if 'a' ≤ c && c ≤ 'f' then some (c.toNat - 87)
  else if 'A' ≤ c && c ≤ 'F' then some (c.toNat - 55)
  else none

/-- Parse exactly four hexadecimal digits. -/
def hex4 : List Char → Option (Nat × List Char)
  | a :: b :: c :: d :: rest => do
    let x ← hexVal a
    let y ← hexVal b
    let z ← hexVal c
    let w ← hexVal d
    pure (4096 * x + 256 * y + 16 * z + w, rest)
  | _ => none

/-- Single-character JSON escapes. -/
def escChar (e : Char) : Option Char :=
  if e = quoteChar then some quoteChar
  else if e = backslashChar then some backslashChar
  else if e = '/' then some '/'
  else if e = 'b' then some (Char.ofNat 8)
  else if e = 'f' then some (Char.ofNat 12)
  else if e = 'n' then some (Char.ofNat 10)
  else if e = 'r' then some (Char.ofNat 13)
  else if e = 't' then some (Char.ofNat 9)
  else none

/-- The unicode replacement character, which Go substitutes for invalid
surrogate escapes. -/
def replacementChar : Char := Char.ofNat 0xFFFD

/-- Parse the body of a JSON string after the opening quote, accumulating
characters in reverse.  Raw control characters are rejected, escape
sequences are decoded, and surrogate pairs are combined (lone surrogates
become the replacement character, as in Go). -/
def parseStrBody : Nat → List Char → List Char → Option (String × List Char)
  | 0, _, _ => none
  | _, [], _ => none
  | fuel + 1, c :: rest, acc =>
    if c = quoteChar then some (String.mk acc.reverse, rest)
    else if c = backslashChar then
      match rest with
      | [] => none
      | e :: rest2 =>
        if e = 'u' then
          match hex4 rest2 with
          | none => none
          | some (n, rest3) =>
            if 0xD800 ≤ n ∧ n ≤ 0xDBFF then
              match rest3 with
              | b1 :: u1 :: r4 =>
                if b1 = backslashChar ∧ u1 = 'u' then
                  match hex4 r4 with
                  | some (n2, rest5) =>
                    if 0xDC00 ≤ n2 ∧ n2 ≤ 0xDFFF then
                      parseStrBody fuel rest5
                        (Char.ofNat (0x10000 + (n - 0xD800) * 1024 + (n2 - 0xDC00)) :: acc)
                    else parseStrBody fuel rest3 (replacementChar :: acc)
                  | none => parseStrBody fuel rest3 (replacementChar :: acc)
                else parseStrBody fuel rest3 (replacementChar :: acc)
              | _ => parseStrBody fuel rest3 (replacementChar :: acc)
            else if 0xDC00 ≤ n ∧ n ≤ 0xDFFF then
              parseStrBody fuel rest3 (replacementChar :: acc)
            else parseStrBody fuel rest3 (Char.ofNat n :: acc)
        else
          match escChar e with
          | some ch => parseStrBody fuel rest2 (ch :: acc)
          | none => none
    else if c.toNat < 32 then none
    else parseStrBody fuel rest (c :: acc)

/-- Parse a JSON string literal given the characters after the opening
quote. -/
def parseStrAfterQuote (cs : List Char) : Option (String × List Char) :=
  parseStrBody (cs.length + 1) cs []

/-- Parse the optional fraction part of a JSON number. -/
def parseFracPart (acc cs : List Char) : Option (List Char × List Char) :=
  match cs with
  | c :: rest =>
    if c = '.' then
      let digs := rest.takeWhile isDigitChar
      if digs.isEmpty then none
      else some (acc ++ c :: digs, rest.dropWhile isDigitChar)
    else some (acc, cs)
  | [] => some (acc, [])

/-- Parse the optional exponent part of a JSON number. -/
def parseExpPart (acc cs : List Char) : Option (List Char × List Char) :=
  match cs with
  | c :: rest =>
    if c = 'e' ∨ c = 'E' then
      let (sgn, rest1) :=
        match rest with
        | s :: r1 => if s = '+' ∨ s = '-' then ([s], r1) else (([] : List Char), rest)
        | [] => ([], rest)
      let digs := rest1.takeWhile isDigitChar
      if digs.isEmpty then none
      else some (acc ++ c :: sgn ++ digs, rest1.dropWhile isDigitChar)
    else some (acc, cs)
  | [] => some (acc, [])

/-- Parse a JSON number literal per the JSON grammar, returning its exact
text. -/
def parseNumLit (cs : List Char) : Option (String × List Char) :=
  let (negPart, cs1) :=
    match cs with
    | c :: rest => if c = '-' then (([c] : List Char), rest) else ([], cs)
    | [] => ([], cs)
  match cs1 with
  | [] => none
  | c :: rest =>
    if c = '0' then do
      let (acc1, cs2) ← parseFracPart (negPart ++ [c]) rest
      let (acc2, cs3) ← parseExpPart acc1 cs2
      pure (String.mk acc2, cs3)
    else if isDigitChar c then do
      let digs := rest.takeWhile isDigitChar
      let (acc1, cs2) ← parseFracPart (negPart ++ c :: digs) (rest.dropWhile isDigitChar)
      let (acc2, cs3) ← parseExpPart acc1 cs2
      pure (String.mk acc2, cs3)
    else none

mutual

/-- Parse one JSON value. -/
def parseVal : Nat → List Char → Option (JVal × List Char)
  | 0, _ => none
  | fuel + 1, cs =>
    match skipWs cs with
    | [] => none
    | c :: rest =>
      if c = lbraceChar then parseObjMembers fuel rest []
      else if c = '[' then parseArrElems fuel rest []
      else if c = quoteChar then
        match parseStrAfterQuote rest with
        | some (s, cs2) => some (.jstr s, cs2)
        | none => none
      else if c = 't' then
        match rest with
        | 'r' :: 'u' :: 'e' :: cs2 => some (.jbool true, cs2)
        | _ => none
      else if c = 'f' then
        match rest with
        | 'a' :: 'l' :: 's' :: 'e' :: cs2 => some (.jbool false, cs2)
        | _ => none
      else if c = 'n' then
        match rest with
        | 'u' :: 'l' :: 'l' :: cs2 => some (.jnull, cs2)
        | _ => none
      else
        match parseNumLit (c :: rest) with
        | some (lit, cs2) => some (.jnum lit, cs2)
        | none => none

/-- Parse array elements after the opening bracket (or after a comma). -/
def parseArrElems : Nat → List Char → List JVal → Option (JVal × List Char)
  | 0, _, _ => none
  | fuel + 1, cs, acc =>
    match skipWs cs with
    | ']' :: rest =>
      if acc.isEmpty then some (.jarr [], rest)
      else none
    | cs1 =>
      match parseVal fuel cs1 with
      | none => none
      | some (v, cs2) =>
        match skipWs cs2 with
        | ',' :: cs3 => parseArrElems fuel cs3 (acc ++ [v])
        | ']' :: cs3 => some (.jarr (acc ++ [v]), cs3)
        | _ => none

/-- Parse object members after the opening brace (or after a comma). -/
def parseObjMembers : Nat → List Char → List (String × JVal) →
    Option (JVal × List Char)
  | 0, _, _ => none
  | fuel + 1, cs, acc =>
    match skipWs cs with
    | [] => none
    | c :: rest =>
      if c = rbraceChar then
        if acc.isEmpty then some (.jobj [], rest) else none
      else if c = quoteChar then
        match parseStrAfterQuote rest with
        | none => none
        | some (key, cs2) =>
          match skipWs cs2 with
          | ':' :: cs3 =>
            match parseVal fuel cs3 with
            | none => none
            | some (v, cs4) =>
              match skipWs cs4 with
              | ',' :: cs5 => parseObjMembers fuel cs5 (acc ++ [(key, v)])
              | cs5 =>
                match cs5 with
                | c2 :: cs6 =>
                  if c2 = rbraceChar then some (.jobj (acc ++ [(key, v)]), cs6)
                  else none
                | [] => none
          | _ => none
      else none

end

/-- Parse a complete JSON document: one value, with only whitespace
allowed afterwards. -/
def parseJson (s : String) : Option JVal :=
  match parseVal (2 * s.data.length + 4) s.data with
  | some (v, rest) => if (skipWs rest).isEmpty then some v else none
  | none => none

/-- ASCII-lowercase a string, used for Go's case-insensitive JSON field
matching. -/
def lowerAscii (s : String) : String := String.mk (s.data.map Char.toLower)

/-- Decode a JSON number literal into a `uint64`, Go
`strconv.ParseUint(lit, 10, 64)`: plain decimal digits only, value below
`2 ^ 64`. -/
def decodeUintLit (lit : String) : Option Nat :=
  if lit.data ≠ [] ∧ lit.data.all isDigitChar then
    let n := lit.data.foldl (fun acc c => 10 * acc + (c.toNat - 48)) 0
    if n < 18446744073709551616 then some n else none
  else none

/-- Fold one JSON object member into a `Status`, with Go's
case-insensitive field-name matching; unknown fields are ignored and type
mismatches are errors. -/
def statusFieldStep (st : Status) (field : String × JVal) : Except String Status :=
  let n := lowerAscii field.1
  if n = "lastreplicated" then
    match field.2 with
    | .jnum lit =>
      match decodeUintLit lit with
      | some v => .ok { st with lastReplicated := v }
      | none => .error "json: cannot unmarshal number into field LastReplicated of type uint64"
    | _ => .error "json: cannot unmarshal value into field LastReplicated of type uint64"
  else if n = "source" then
    match field.2 with
    | .jstr s => .ok { st with source := s }
    | _ => .error "json: cannot unmarshal value into field Source of type string"
  else if n = "destination" then
    match field.2 with
    | .jstr s => .ok { st with destination := s }
    | _ => .error "json: cannot unmarshal value into field Destination of type string"
  else .ok st

/-- Go `json.Unmarshal(bytes, &status)` where `status` has type
pointer-to-`Status`: a JSON null sets the pointer to nil (`none` here), an
object fills a fresh `Status`, anything else — including bytes that are not
valid JSON — is an error. -/
def unmarshalStatus (bytes : String) : Except String (Option Status) :=
  match parseJson bytes with
  | none => .error "invalid character in status JSON"
  | some .jnull => .ok none
  | some (.jobj fields) => (fields.foldlM statusFieldStep freshStatus).map some
  | some _ => .error "json: cannot unmarshal value into Go value of type main.Status"

/-- Go `json.MarshalIndent(status, "", "  ")` for the three-field `Status`
struct (string values are assumed to need no escaping, which holds for all
inputs considered here). -/
def marshalStatus (st : Status) : String :=
  String.singleton lbraceChar ++ "\n  " ++
  String.singleton quoteChar ++ "LastReplicated" ++ String.singleton quoteChar ++
  ": " ++ toString st.lastReplicated ++ ",\n  " ++
  String.singleton quoteChar ++ "Source" ++ String.singleton quoteChar ++ ": " ++
  String.singleton quoteChar ++ st.source ++ String.singleton quoteChar ++ ",\n  " ++
  String.singleton quoteChar ++ "Destination" ++ String.singleton quoteChar ++ ": " ++
  String.singleton quoteChar ++ st.destination ++ String.singleton quoteChar ++ "\n" ++
  String.singleton rbraceChar

/-- Go `Runner.getStatus`, as a function of the raw `kv.Get` outcome at the
status path: a Get error propagates, a missing pair yields the fresh zero
status, and present bytes are unmarshaled (`none` inside `ok` is Go's nil
status pointer, produced by a JSON null). -/
def getStatus (statusGet : Except String (Option String)) :
    Except String (Option Status) :=
  match statusGet with
  | .error e => .error e
  | .ok none => .ok (some freshStatus)
  | .ok (some bytes) => unmarshalStatus bytes

/-! The per-prefix Replicator, `Runner.replicate`.  Consul RPC outcomes are
supplied by an environment record; the function returns the trace of KV
operations issued at the destination together with the outcome it reports
on its channels (`doneCh` or `errCh`). -/

/-- A KV operation issued at the destination.  A data write carries the key,
value, flags and the (always empty) session of the `api.KVPair` literal the
code builds; the status checkpoint is the `kv.Put` done by
`Runner.setStatus` and carries the `Status` being persisted. -/
inductive KVOp where
  | put (key : String) (value : String) (flags : Nat) (session : String)
  | del (key : String)
  | putStatus (path : String) (st : Status)
deriving DecidableEq, Repr

/-- The errors `Runner.replicate` can send on `errCh`, keyed by the
`fmt.Errorf` site. -/
inductive RepErr where
  | agentQueryFailed (msg : String)
  | selfReplication
  | statusReadFailed (msg : String)
  | writeFailed (key : String)
  | listKeysFailed (msg : String)
  | deleteFailed (key : String)
  | checkpointFailed
deriving DecidableEq, Repr

/-- How one `replicate` call ends: a `doneCh` send, an `errCh` send, or a
Go runtime crash (nil `Status` pointer dereference, possible only when the
stored status bytes were the JSON literal null). -/
inductive RepResult where
  | done
  | fail (e : RepErr)
  | crashed
deriving DecidableEq, Repr

/-- Oracle results for the Consul RPCs one `replicate` call performs:
the local agent query, the status `kv.Get`, the watcher view for the
prefix, the destination `kv.Keys` listing, and the success of each
`kv.Put` / `kv.Delete` including the status checkpoint write. -/
structure Env where
  agentSelf : Except String String
  statusGet : Except String (Option String)
  view : Option (List KeyPair × Nat)
  keysList : Except String (List String)
  putOk : String → Bool
  deleteOk : String → Bool
  statusPutOk : Bool

/-- Destination rewrite of an observed source path:
`prefix.Destination + strings.TrimPrefix(path, prefix.Source)`. -/
def rewriteKey (pfx : PrefixConfig) (path : String) : String :=
  pfx.destination ++ goTrimPref path pfx.source

/-- A pair is excluded from writing iff some exclude source is a string
prefix of its observed path. -/
def excludedWrite (excludes : List ExcludeConfig) (path : String) : Bool :=
  excludes.any (fun e => goHasPref path e.source)

/-- Source-side reconstruction of a destination key, as the delete loop
computes it: `strings.Replace(key, prefix.Destination, prefix.Source, -1)`. -/
def sourceSideKey (pfx : PrefixConfig) (key : String) : String :=
  goReplaceAll key pfx.destination pfx.source

/-- A destination key is excluded from deleting iff some exclude source is
a string prefix of its source-side reconstruction. -/
def excludedDelete (excludes : List ExcludeConfig) (pfx : PrefixConfig)
    (key : String) : Bool :=
  excludes.any (fun e => goHasPref (sourceSideKey pfx key) e.source)

/-- How the update loop stops early: a failed `kv.Put`, or the nil status
pointer dereference at the modify-index comparison. -/
inductive UpdateAbort where
  | writeFailed (key : String)
  | nilStatusDeref
deriving DecidableEq, Repr

/-- The update loop of `Runner.replicate`: walks the observed pairs in
order, recording every pair's destination rewrite in `usedKeys` first, then
skipping excluded pairs, then pairs at or below the checkpoint, and issuing
a `kv.Put` (with the pair's value and flags and an empty session) for the
rest; a failed put aborts the loop.  Returns the final `usedKeys`, the
issued operations, and the abort reason if any. -/
def runUpdates (pfx : PrefixConfig) (excludes : List ExcludeConfig)
    (stOpt : Option Status) (putOk : String → Bool) :
    List KeyPair → List String → List String × List KVOp × Option UpdateAbort
  | [], used => (used, [], none)
  | pair :: rest, used =>
    let key := rewriteKey pfx pair.path
    let used1 := used ++ [key]
    if excludedWrite excludes pair.path then
      runUpdates pfx excludes stOpt putOk rest used1
    else
      match stOpt with
      | none => (used1, [], some .nilStatusDeref)
      | some st =>
        if pair.modifyIndex ≤ st.lastReplicated then
          runUpdates pfx excludes (some st) putOk rest used1
        else
          let op := KVOp.put key pair.value pair.flags ""
          if putOk key then
            let res := runUpdates pfx excludes (some st) putOk rest used1
            (res.1, op :: res.2.1, res.2.2)
          else (used1, [op], some (.writeFailed key))

/-- The delete-reconciliation loop of `Runner.replicate`: every listed
destination key that is neither in `usedKeys` nor excluded is deleted; a
failed delete aborts the loop and carries the key. -/
def runDeletes (excludes : List ExcludeConfig) (pfx : PrefixConfig)
    (deleteOk : String → Bool) (used : List String) :
    List String → List KVOp × Option String
  | [] => ([], none)
  | key :: rest =>
    if !(used.contains key) && !(excludedDelete excludes pfx key) then
      if deleteOk key then
        let res := runDeletes excludes pfx deleteOk used rest
        (KVOp.del key :: res.1, res.2)
      else ([KVOp.del key], some key)
    else runDeletes excludes pfx deleteOk used rest

/-- Go `Runner.replicate` for one prefix: the self-replication guard, the
status read, the view lookup (absent view reports done with no work), the
update loop, the delete loop, and the checkpoint write, each aborting with
the corresponding error.  The returned list is the ordered trace of KV
operations issued at the destination. -/
def replicate (statusDir : String) (pfx : PrefixConfig)
    (excludes : List ExcludeConfig) (env : Env) : List KVOp × RepResult :=
  match env.agentSelf with
  | .error e => ([], .fail (.agentQueryFailed e))
  | .ok localDatacenter =>
    if localDatacenter = pfx.datacenter then ([], .fail .selfReplication)
    else
      match getStatus env.statusGet with
      | .error e => ([], .fail (.statusReadFailed e))
      | .ok stOpt =>
        match env.view with
        | none => ([], .done)
        | some (pairs, lastIndex) =>
          match runUpdates pfx excludes stOpt env.putOk pairs [] with
          | (_, uOps, some (.writeFailed k)) => (uOps, .fail (.writeFailed k))
          | (_, uOps, some .nilStatusDeref) => (uOps, .crashed)
          | (used, uOps, none) =>
            match env.keysList with
            | .error e => (uOps, .fail (.listKeysFailed e))
            | .ok localKeys =>
              match runDeletes excludes pfx env.deleteOk used localKeys with
              | (dOps, some k) => (uOps ++ dOps, .fail (.deleteFailed k))
              | (dOps, none) =>
                match stOpt with
                | none => (uOps ++ dOps, .crashed)
                | some _ =>
                  let newSt : Status :=
                    { lastReplicated := lastIndex, source := pfx.source,
                      destination := pfx.destination }
                  let ops := uOps ++ dOps ++
                    [KVOp.putStatus (statusPath statusDir pfx) newSt]
                  if env.statusPutOk then (ops, .done)
                  else (ops, .fail .checkpointFailed)

/-- The persisted `LastReplicated` value of a status write, if the
operation is one. -/
def ckptProj (op : KVOp) : Option Nat :=
  match op with
  | .putStatus _ st => some st.lastReplicated
  | _ => none

/-- The checkpoint values persisted in a trace: the `LastReplicated` field
of every status write, in order. -/
def checkpointsIn (ops : List KVOp) : List Nat :=
  ops.filterMap ckptProj

/-! The Runner event loop, `Runner.Run` and `Runner.Start`. -/

/-- Go `Runner.Run`: fan out `replicate` over the prefixes (each paired here
with its RPC environment), collect the `errCh` sends into a multierror.
Crashed goroutines never send; jobs considered below never crash. -/
def collectRunErrors (statusDir : String) (excludes : List ExcludeConfig)
    (jobs : List (PrefixConfig × Env)) : List RepErr :=
  jobs.filterMap (fun j =>
    match (replicate statusDir j.1 excludes j.2).2 with
    | .fail e => some e
    | _ => none)

/-- The value `Runner.Run` returns: `errs.ErrorOrNil()`, which is nil
exactly when no error was appended. -/
def runPass (statusDir : String) (excludes : List ExcludeConfig)
    (jobs : List (PrefixConfig × Env)) : Option (List RepErr) :=
  let es := collectRunErrors statusDir excludes jobs
  if es.isEmpty then none else some es

/-- What the `Runner.Start` event loop does right after a `Run` returns. -/
inductive StartOutcome where
  | terminatedWithError (errs : List RepErr)
  | terminatedDone
  | continueLoop
deriving DecidableEq, Repr

/-- Go `Runner.Start` lines after `r.Run()`: a non-nil error is sent on
`ErrCh` and the loop returns; otherwise once-mode signals `DoneCh` and
returns, and daemon mode loops. -/
def startAfterRun (once : Bool) (res : Option (List RepErr)) : StartOutcome :=
  match res with
  | some errs => .terminatedWithError errs
  | none => if once then .terminatedDone else .continueLoop

/-! The quiescence timers of the `Runner.Start` select loop.  A `none`
deadline is Go's nil timer channel, which never fires. -/

/-- The two quiescence timer deadlines held by the Runner. -/
structure TimerState where
  minDeadline : Option Nat
  maxDeadline : Option Nat
deriving DecidableEq, Repr

/-- Handling of a data event at time `now`: with both wait bounds non-zero
the min timer is (re)armed to `now + wMin`, the max timer is armed to
`now + wMax` only when currently nil, and the loop continues without
running; with either bound zero the state is untouched and a Run executes
immediately.  The boolean is whether a Run executes now. -/
def stepDataEvent (wMin wMax now : Nat) (s : TimerState) : TimerState × Bool :=
  if wMin ≠ 0 ∧ wMax ≠ 0 then
    ({ minDeadline := some (now + wMin),
       maxDeadline :=
         match s.maxDeadline with
         | none => some (now + wMax)
         | some d => some d }, false)
  else (s, true)

/-- Firing of the min quiescence timer: possible only when armed; both
timers are cleared and a Run executes. -/
def stepMinTimer (s : TimerState) : Option (TimerState × Bool) :=
  match s.minDeadline with
  | none => none
  | some _ => some ({ minDeadline := none, maxDeadline := none }, true)

/-- Firing of the max quiescence timer: possible only when armed; both
timers are cleared and a Run executes. -/
def stepMaxTimer (s : TimerState) : Option (TimerState × Bool) :=
  match s.maxDeadline with
  | none => none
  | some _ => some ({ minDeadline := none, maxDeadline := none }, true)

/-! CLI exit codes.  In the Go const block, `iota` is the index of the
ConstSpec inside the block; `ExitCodeOK int = 0` is spec 0, so at
`ExitCodeError = 10 + iota` the value of `iota` is already 1, and each
following name repeats the expression `10 + iota` with its own spec
index. -/

/-- Exit code returned on success. -/
def ExitCodeOK : Nat := 0

/-- The value the const block actually assigns to `ExitCodeError`
(spec index 1). -/
def ExitCodeError : Nat := 10 + 1

/-- The value the const block actually assigns to `ExitCodeInterrupt`
(spec index 2). -/
def ExitCodeInterrupt : Nat := 10 + 2

/-- The value the const block actually assigns to `ExitCodeParseFlagsError`
(spec index 3). -/
def ExitCodeParseFlagsError : Nat := 10 + 3

/-- The value the const block actually assigns to `ExitCodeRunnerError`
(spec index 4). -/
def ExitCodeRunnerError : Nat := 10 + 4

/-- The value the const block actually assigns to `ExitCodeConfigError`
(spec index 5). -/
def ExitCodeConfigError : Nat := 10 + 5

/-- The terminating events of `CLI.Run` in the CLI source. -/
inductive CLIEvent where
  | helpRequested
  | flagParseFailed
  | configLoadFailed
  | setupFailed
  | versionRequested
  | runnerInitFailed
  | runnerErrorReported (exitStatus : Option Nat)
  | runnerDone
  | killSignalReceived
  | stopRequested
deriving DecidableEq, Repr

/-- The exit status `CLI.Run` returns for each terminating event, read off
the return sites of `CLI.Run`: help prints usage and returns 0, a runner
error uses the typed exit status when the error carries one. -/
def cliExitCode : CLIEvent → Nat
  | .helpRequested => 0
  | .flagParseFailed => ExitCodeParseFlagsError
  | .configLoadFailed => ExitCodeConfigError
  | .setupFailed => ExitCodeConfigError
  | .versionRequested => ExitCodeOK
  | .runnerInitFailed => ExitCodeRunnerError
  | .runnerErrorReported o => o.getD ExitCodeRunnerError
  | .runnerDone => ExitCodeOK
  | .killSignalReceived => ExitCodeInterrupt
  | .stopRequested => ExitCodeOK

/-! Helper lemmas about the embedded definitions. -/

/-- Data view of the destination rewrite when the source is a prefix of the
observed path. -/
lemma rewriteKey_data (pfx : PrefixConfig) (p : String)
    (h : goHasPref p pfx.source = true) :
    (rewriteKey pfx p).data =
      pfx.destination.data ++ p.data.drop pfx.source.data.length := by
  unfold goHasPref at h
  unfold rewriteKey goTrimPref
  rw [if_pos h, String.data_append]

/-- On paths that carry the source as a prefix, the destination rewrite is
injective. -/
lemma rewriteKey_inj (pfx : PrefixConfig) (p q : String)
    (hp : goHasPref p pfx.source = true) (hq : goHasPref q pfx.source = true)
    (h : rewriteKey pfx p = rewriteKey pfx q) : p = q := by
  have hp' : pfx.source.data <+: p.data :=
    List.isPrefixOf_iff_prefix.mp hp
  have hq' : pfx.source.data <+: q.data :=
    List.isPrefixOf_iff_prefix.mp hq
  have hd := congrArg String.data h
  rw [rewriteKey_data pfx p hp, rewriteKey_data pfx q hq] at hd
  have h2 := List.append_cancel_left hd
  have hp2 := List.prefix_iff_eq_append.mp hp'
  have hq2 := List.prefix_iff_eq_append.mp hq'
  exact String.ext (by rw [← hp2, ← hq2, h2])

/-- Unfolding equation for the update loop on the empty list. -/
lemma runUpdates_nil (pfx : PrefixConfig) (excludes : List ExcludeConfig)
    (stOpt : Option Status) (putOk : String → Bool) (used : List String) :
    runUpdates pfx excludes stOpt putOk [] used = (used, [], none) := rfl

/-- Unfolding equation for the update loop on a cons cell. -/
lemma runUpdates_cons (pfx : PrefixConfig) (excludes : List ExcludeConfig)
    (stOpt : Option Status) (putOk : String → Bool) (pair : KeyPair)
    (rest : List KeyPair) (used : List String) :
    runUpdates pfx excludes stOpt putOk (pair :: rest) used =
      (if excludedWrite excludes pair.path then
        runUpdates pfx excludes stOpt putOk rest (used ++ [rewriteKey pfx pair.path])
      else
        match stOpt with
        | none => (used ++ [rewriteKey pfx pair.path], [], some .nilStatusDeref)
        | some st =>
          if pair.modifyIndex ≤ st.lastReplicated then
            runUpdates pfx excludes (some st) putOk rest
              (used ++ [rewriteKey pfx pair.path])
          else
            if putOk (rewriteKey pfx pair.path) then
              ((runUpdates pfx excludes (some st) putOk rest
                  (used ++ [rewriteKey pfx pair.path])).1,
               KVOp.put (rewriteKey pfx pair.path) pair.value pair.flags "" ::
                 (runUpdates pfx excludes (some st) putOk rest
                   (used ++ [rewriteKey pfx pair.path])).2.1,
               (runUpdates pfx excludes (some st) putOk rest
                 (used ++ [rewriteKey pfx pair.path])).2.2)
            else
              (used ++ [rewriteKey pfx pair.path],
               [KVOp.put (rewriteKey pfx pair.path) pair.value pair.flags ""],
               some (.writeFailed (rewriteKey pfx pair.path)))) := rfl

/-- Unfolding equation for the delete loop on the empty list. -/
lemma runDeletes_nil (excludes : List ExcludeConfig) (pfx : PrefixConfig)
    (deleteOk : String → Bool) (used : List String) :
    runDeletes excludes pfx deleteOk used [] = ([], none) := rfl

/-- Unfolding equation for the delete loop on a cons cell. -/
lemma runDeletes_cons (excludes : List ExcludeConfig) (pfx : PrefixConfig)
    (deleteOk : String → Bool) (used : List String) (key : String)
    (rest : List String) :
    runDeletes excludes pfx deleteOk used (key :: rest) =
      (if !(used.contains key) && !(excludedDelete excludes pfx key) then
        if deleteOk key then
          (KVOp.del key :: (runDeletes excludes pfx deleteOk used rest).1,
           (runDeletes excludes pfx deleteOk used rest).2)
        else ([KVOp.del key], some key)
      else runDeletes excludes pfx deleteOk used rest) := rfl

/-- Every operation the update loop issues is a session-free put of some
observed pair that is not excluded and lies above the checkpoint (so in
particular the status pointer was non-nil). -/
lemma mem_runUpdates_ops (pfx : PrefixConfig) (excludes : List ExcludeConfig)
    (stOpt : Option Status) (putOk : String → Bool) (pairs : List KeyPair) :
    ∀ (used : List String) (op : KVOp),
      op ∈ (runUpdates pfx excludes stOpt putOk pairs used).2.1 →
      ∃ p, p ∈ pairs ∧ ∃ st, stOpt = some st ∧
        excludedWrite excludes p.path = false ∧
        st.lastReplicated < p.modifyIndex ∧
        op = KVOp.put (rewriteKey pfx p.path) p.value p.flags "" := by
  induction pairs with
  | nil => intro used op h; rw [runUpdates_nil] at h; simp at h
  | cons pair rest ih =>
    intro used op h
    rw [runUpdates_cons] at h
    by_cases hexc : excludedWrite excludes pair.path = true
    · rw [if_pos hexc] at h
      obtain ⟨p, hp, hrest⟩ := ih _ _ h
      exact ⟨p, List.mem_cons_of_mem _ hp, hrest⟩
    · rw [if_neg hexc] at h
      cases stOpt with
      | none => dsimp only at h; simp at h
      | some st =>
        dsimp only at h
        by_cases hle : pair.modifyIndex ≤ st.lastReplicated
        · rw [if_pos hle] at h
          obtain ⟨p, hp, hrest⟩ := ih _ _ h
          exact ⟨p, List.mem_cons_of_mem _ hp, hrest⟩
        · rw [if_neg hle] at h
          by_cases hput : putOk (rewriteKey pfx pair.path) = true
          · rw [if_pos hput] at h
            dsimp only at h
            rcases List.mem_cons.mp h with h0 | h1
            · exact ⟨pair, List.mem_cons_self _ _,
                st, rfl, Bool.not_eq_true _ ▸ hexc, Nat.lt_of_not_le hle, h0⟩
            · obtain ⟨p, hp, hrest⟩ := ih _ _ h1
              exact ⟨p, List.mem_cons_of_mem _ hp, hrest⟩
          · rw [if_neg hput] at h
            dsimp only at h
            rcases List.mem_singleton.mp h with h0
            exact ⟨pair, List.mem_cons_self _ _,
              st, rfl, Bool.not_eq_true _ ▸ hexc, Nat.lt_of_not_le hle, h0⟩

/-- Every operation the delete loop issues is the deletion of a listed key
that is neither used nor excluded. -/
lemma mem_runDeletes_ops (excludes : List ExcludeConfig) (pfx : PrefixConfig)
    (deleteOk : String → Bool) (used : List String) (keys : List String) :
    ∀ op, op ∈ (runDeletes excludes pfx deleteOk used keys).1 →
      ∃ k, k ∈ keys ∧ used.contains k = false ∧
        excludedDelete excludes pfx k = false ∧ op = KVOp.del k := by
  induction keys with
  | nil => intro op h; rw [runDeletes_nil] at h; simp at h
  | cons key rest ih =>
    intro op h
    rw [runDeletes_cons] at h
    by_cases hc : (!(used.contains key) && !(excludedDelete excludes pfx key)) = true
    · rw [if_pos hc] at h
      rw [Bool.and_eq_true, Bool.not_eq_true', Bool.not_eq_true'] at hc
      by_cases hdel : deleteOk key = true
      · rw [if_pos hdel] at h
        dsimp only at h
        rcases List.mem_cons.mp h with h0 | h1
        · exact ⟨key, List.mem_cons_self _ _, hc.1, hc.2, h0⟩
        · obtain ⟨k, hk, hrest⟩ := ih _ h1
          exact ⟨k, List.mem_cons_of_mem _ hk, hrest⟩
      · rw [if_neg hdel] at h
        dsimp only at h
        rcases List.mem_singleton.mp h with h0
        exact ⟨key, List.mem_cons_self _ _, hc.1, hc.2, h0⟩
    · rw [if_neg hc] at h
      obtain ⟨k, hk, hrest⟩ := ih _ h
      exact ⟨k, List.mem_cons_of_mem _ hk, hrest⟩

/-- With a non-nil status and all puts succeeding, the update loop never
aborts. -/
lemma runUpdates_no_abort (pfx : PrefixConfig) (excludes : List ExcludeConfig)
    (st : Status) (putOk : String → Bool) (hput : ∀ k, putOk k = true)
    (pairs : List KeyPair) :
    ∀ used, (runUpdates pfx excludes (some st) putOk pairs used).2.2 = none := by
  induction pairs with
  | nil => intro used; rw [runUpdates_nil]
  | cons pair rest ih =>
    intro used
    rw [runUpdates_cons]
    by_cases hexc : excludedWrite excludes pair.path = true
    · rw [if_pos hexc]; exact ih _
    · rw [if_neg hexc]
      dsimp only
      by_cases hle : pair.modifyIndex ≤ st.lastReplicated
      · rw [if_pos hle]; exact ih _
      · rw [if_neg hle, if_pos (hput _)]
        exact ih _

/-- The update loop aborts with a write failure or not at all when the
status is non-nil. -/
lemma runUpdates_abort_of_some (pfx : PrefixConfig) (excludes : List ExcludeConfig)
    (st : Status) (putOk : String → Bool) (pairs : List KeyPair) :
    ∀ used, (runUpdates pfx excludes (some st) putOk pairs used).2.2 ≠
      some UpdateAbort.nilStatusDeref := by
  induction pairs with
  | nil => intro used; rw [runUpdates_nil]; simp
  | cons pair rest ih =>
    intro used
    rw [runUpdates_cons]
    by_cases hexc : excludedWrite excludes pair.path = true
    · rw [if_pos hexc]; exact ih _
    · rw [if_neg hexc]
      dsimp only
      by_cases hle : pair.modifyIndex ≤ st.lastReplicated
      · rw [if_pos hle]; exact ih _
      · rw [if_neg hle]
        by_cases hput : putOk (rewriteKey pfx pair.path) = true
        · rw [if_pos hput]; exact ih _
        · rw [if_neg hput]; simp

/-- With all deletes succeeding, the delete loop never aborts. -/
lemma runDeletes_no_abort (excludes : List ExcludeConfig) (pfx : PrefixConfig)
    (deleteOk : String → Bool) (hdel : ∀ k, deleteOk k = true)
    (used : List String) (keys : List String) :
    (runDeletes excludes pfx deleteOk used keys).2 = none := by
  induction keys with
  | nil => rw [runDeletes_nil]
  | cons key rest ih =>
    rw [runDeletes_cons]
    by_cases hc : (!(used.contains key) && !(excludedDelete excludes pfx key)) = true
    · rw [if_pos hc, if_pos (hdel _)]; exact ih
    · rw [if_neg hc]; exact ih

/-- When the update loop does not abort, every non-excluded pair above the
checkpoint has its session-free put in the loop's trace. -/
lemma runUpdates_complete (pfx : PrefixConfig) (excludes : List ExcludeConfig)
    (st : Status) (putOk : String → Bool) (pairs : List KeyPair) :
    ∀ used, (runUpdates pfx excludes (some st) putOk pairs used).2.2 = none →
      ∀ p ∈ pairs, excludedWrite excludes p.path = false →
        st.lastReplicated < p.modifyIndex →
        KVOp.put (rewriteKey pfx p.path) p.value p.flags "" ∈
          (runUpdates pfx excludes (some st) putOk pairs used).2.1 := by
  induction pairs with
  | nil => intro used _ p hp; simp at hp
  | cons pair rest ih =>
    intro used hnone p hp hexcl hlt
    rw [runUpdates_cons] at hnone ⊢
    by_cases hexc : excludedWrite excludes pair.path = true
    · rw [if_pos hexc] at hnone ⊢
      rcases List.mem_cons.mp hp with h0 | h1
      · rw [h0] at hexcl; rw [hexcl] at hexc; exact absurd hexc (by simp)
      · exact ih _ hnone p h1 hexcl hlt
    · rw [if_neg hexc] at hnone ⊢
      dsimp only at hnone ⊢
      by_cases hle : pair.modifyIndex ≤ st.lastReplicated
      · rw [if_pos hle] at hnone ⊢
        rcases List.mem_cons.mp hp with h0 | h1
        · rw [h0] at hlt; exact absurd hle (Nat.not_le_of_lt hlt)
        · exact ih _ hnone p h1 hexcl hlt
      · rw [if_neg hle] at hnone ⊢
        by_cases hput : putOk (rewriteKey pfx pair.path) = true
        · rw [if_pos hput] at hnone ⊢
          dsimp only at hnone ⊢
          rcases List.mem_cons.mp hp with h0 | h1
          · rw [h0]; exact List.mem_cons_self _ _
          · exact List.mem_cons_of_mem _ (ih _ hnone p h1 hexcl hlt)
        · rw [if_neg hput] at hnone; dsimp only at hnone; simp at hnone

/-- Equation-style origin for puts issued by the update loop starting from
an empty used set. -/
lemma runUpdates_put_origin {pfx : PrefixConfig} {excludes : List ExcludeConfig}
    {stOpt : Option Status} {putOk : String → Bool} {pairs : List KeyPair}
    {used : List String} {uOps : List KVOp} {ab : Option UpdateAbort}
    (hru : runUpdates pfx excludes stOpt putOk pairs [] = (used, uOps, ab))
    {op : KVOp} (hop : op ∈ uOps) :
    ∃ p, p ∈ pairs ∧ ∃ st, stOpt = some st ∧
      excludedWrite excludes p.path = false ∧
      st.lastReplicated < p.modifyIndex ∧
      op = KVOp.put (rewriteKey pfx p.path) p.value p.flags "" :=
  mem_runUpdates_ops pfx excludes stOpt putOk pairs [] op (by rw [hru]; exact hop)

/-- Equation-style origin for deletes issued by the delete loop. -/
lemma runDeletes_del_origin {excludes : List ExcludeConfig} {pfx : PrefixConfig}
    {deleteOk : String → Bool} {used : List String} {keys : List String}
    {dOps : List KVOp} {ab : Option String}
    (hrd : runDeletes excludes pfx deleteOk used keys = (dOps, ab))
    {op : KVOp} (hop : op ∈ dOps) :
    ∃ k, k ∈ keys ∧ used.contains k = false ∧
      excludedDelete excludes pfx k = false ∧ op = KVOp.del k :=
  mem_runDeletes_ops excludes pfx deleteOk used keys op (by rw [hrd]; exact hop)

/-! Evaluation lemmas for the branches of `replicate`. -/

/-- Replicate when the agent query fails. -/
lemma replicate_eval_agentErr {d : String} {pfx : PrefixConfig}
    {excludes : List ExcludeConfig} {env : Env} {e : String}
    (hag : env.agentSelf = .error e) :
    replicate d pfx excludes env = ([], .fail (.agentQueryFailed e)) := by
  unfold replicate; rw [hag]

/-- Replicate under the self-replication guard. -/
lemma replicate_eval_self {d : String} {pfx : PrefixConfig}
    {excludes : List ExcludeConfig} {env : Env} {dc : String}
    (hag : env.agentSelf = .ok dc) (hdc : dc = pfx.datacenter) :
    replicate d pfx excludes env = ([], .fail .selfReplication) := by
  unfold replicate; rw [hag]; dsimp only; rw [if_pos hdc]

/-- Replicate when the status read fails. -/
lemma replicate_eval_statusErr {d : String} {pfx : PrefixConfig}
    {excludes : List ExcludeConfig} {env : Env} {dc e : String}
    (hag : env.agentSelf = .ok dc) (hdc : ¬dc = pfx.datacenter)
    (hst : getStatus env.statusGet = .error e) :
    replicate d pfx excludes env = ([], .fail (.statusReadFailed e)) := by
  unfold replicate; rw [hag]; dsimp only; rw [if_neg hdc, hst]

/-- Replicate when no view has been received for the prefix. -/
lemma replicate_eval_noview {d : String} {pfx : PrefixConfig}
    {excludes : List ExcludeConfig} {env : Env} {dc : String}
    {stOpt : Option Status}
    (hag : env.agentSelf = .ok dc) (hdc : ¬dc = pfx.datacenter)
    (hst : getStatus env.statusGet = .ok stOpt) (hview : env.view = none) :
    replicate d pfx excludes env = ([], .done) := by
  unfold replicate; rw [hag]; dsimp only; rw [if_neg hdc, hst]
  dsimp only; rw [hview]

/-- Replicate when the update loop aborts on a failed put. -/
lemma replicate_eval_updWrite {d : String} {pfx : PrefixConfig}
    {excludes : List ExcludeConfig} {env : Env} {dc : String}
    {stOpt : Option Status} {pairs : List KeyPair} {lastIndex : Nat}
    {used : List String} {uOps : List KVOp} {k : String}
    (hag : env.agentSelf = .ok dc) (hdc : ¬dc = pfx.datacenter)
    (hst : getStatus env.statusGet = .ok stOpt)
    (hview : env.view = some (pairs, lastIndex))
    (hru : runUpdates pfx excludes stOpt env.putOk pairs [] =
      (used, uOps, some (.writeFailed k))) :
    replicate d pfx excludes env = (uOps, .fail (.writeFailed k)) := by
  unfold replicate; rw [hag]; dsimp only; rw [if_neg hdc, hst]
  dsimp only; rw [hview]; dsimp only; rw [hru]

/-- Replicate when the update loop dereferences the nil status pointer. -/
lemma replicate_eval_updNil {d : String} {pfx : PrefixConfig}
    {excludes : List ExcludeConfig} {env : Env} {dc : String}
    {stOpt : Option Status} {pairs : List KeyPair} {lastIndex : Nat}
    {used : List String} {uOps : List KVOp}
    (hag : env.agentSelf = .ok dc) (hdc : ¬dc = pfx.datacenter)
    (hst : getStatus env.statusGet = .ok stOpt)
    (hview : env.view = some (pairs, lastIndex))
    (hru : runUpdates pfx excludes stOpt env.putOk pairs [] =
      (used, uOps, some .nilStatusDeref)) :
    replicate d pfx excludes env = (uOps, .crashed) := by
  unfold replicate; rw [hag]; dsimp only; rw [if_neg hdc, hst]
  dsimp only; rw [hview]; dsimp only; rw [hru]

/-- Replicate when listing the destination keys fails. -/
lemma replicate_eval_keysErr {d : String} {pfx : PrefixConfig}
    {excludes : List ExcludeConfig} {env : Env} {dc e : String}
    {stOpt : Option Status} {pairs : List KeyPair} {lastIndex : Nat}
    {used : List String} {uOps : List KVOp}
    (hag : env.agentSelf = .ok dc) (hdc : ¬dc = pfx.datacenter)
    (hst : getStatus env.statusGet = .ok stOpt)
    (hview : env.view = some (pairs, lastIndex))
    (hru : runUpdates pfx excludes stOpt env.putOk pairs [] = (used, uOps, none))
    (hkeys : env.keysList = .error e) :
    replicate d pfx excludes env = (uOps, .fail (.listKeysFailed e)) := by
  unfold replicate; rw [hag]; dsimp only; rw [if_neg hdc, hst]
  dsimp only; rw [hview]; dsimp only; rw [hru]; dsimp only; rw [hkeys]

/-- Replicate when the delete loop aborts on a failed delete. -/
lemma replicate_eval_delAbort {d : String} {pfx : PrefixConfig}
    {excludes : List ExcludeConfig} {env : Env} {dc k : String}
    {stOpt : Option Status} {pairs : List KeyPair} {lastIndex : Nat}
    {used : List String} {uOps dOps : List KVOp} {localKeys : List String}
    (hag : env.agentSelf = .ok dc) (hdc : ¬dc = pfx.datacenter)
    (hst : getStatus env.statusGet = .ok stOpt)
    (hview : env.view = some (pairs, lastIndex))
    (hru : runUpdates pfx excludes stOpt env.putOk pairs [] = (used, uOps, none))
    (hkeys : env.keysList = .ok localKeys)
    (hrd : runDeletes excludes pfx env.deleteOk used localKeys = (dOps, some k)) :
    replicate d pfx excludes env = (uOps ++ dOps, .fail (.deleteFailed k)) := by
  unfold replicate; rw [hag]; dsimp only; rw [if_neg hdc, hst]
  dsimp only; rw [hview]; dsimp only; rw [hru]; dsimp only; rw [hkeys]
  dsimp only; rw [hrd]

/-- Replicate reaching the final checkpoint assignment with a nil status
pointer (stored bytes were the JSON null literal): a crash. -/
lemma replicate_eval_crashNil {d : String} {pfx : PrefixConfig}
    {excludes : List ExcludeConfig} {env : Env} {dc : String}
    {pairs : List KeyPair} {lastIndex : Nat}
    {used : List String} {uOps dOps : List KVOp} {localKeys : List String}
    (hag : env.agentSelf = .ok dc) (hdc : ¬dc = pfx.datacenter)
    (hst : getStatus env.statusGet = .ok none)
    (hview : env.view = some (pairs, lastIndex))
    (hru : runUpdates pfx excludes none env.putOk pairs [] = (used, uOps, none))
    (hkeys : env.keysList = .ok localKeys)
    (hrd : runDeletes excludes pfx env.deleteOk used localKeys = (dOps, none)) :
    replicate d pfx excludes env = (uOps ++ dOps, .crashed) := by
  unfold replicate; rw [hag]; dsimp only; rw [if_neg hdc, hst]
  dsimp only; rw [hview]; dsimp only; rw [hru]; dsimp only; rw [hkeys]
  dsimp only; rw [hrd]

/-- Replicate completing both loops with a non-nil status: the checkpoint
write is issued, and the outcome depends on its success. -/
lemma replicate_eval_final {d : String} {pfx : PrefixConfig}
    {excludes : List ExcludeConfig} {env : Env} {dc : String} {st : Status}
    {pairs : List KeyPair} {lastIndex : Nat}
    {used : List String} {uOps dOps : List KVOp} {localKeys : List String}
    (hag : env.agentSelf = .ok dc) (hdc : ¬dc = pfx.datacenter)
    (hst : getStatus env.statusGet = .ok (some st))
    (hview : env.view = some (pairs, lastIndex))
    (hru : runUpdates pfx excludes (some st) env.putOk pairs [] = (used, uOps, none))
    (hkeys : env.keysList = .ok localKeys)
    (hrd : runDeletes excludes pfx env.deleteOk used localKeys = (dOps, none)) :
    replicate d pfx excludes env =
      (uOps ++ dOps ++ [KVOp.putStatus (statusPath d pfx)
        { lastReplicated := lastIndex, source := pfx.source,
          destination := pfx.destination }],
       if env.statusPutOk then .done else .fail .checkpointFailed) := by
  unfold replicate; rw [hag]; dsimp only; rw [if_neg hdc, hst]
  dsimp only; rw [hview]; dsimp only; rw [hru]; dsimp only; rw [hkeys]
  dsimp only; rw [hrd]; dsimp only
  by_cases hck : env.statusPutOk = true
  · rw [if_pos hck, if_pos hck]
  · rw [if_neg hck, if_neg hck]

/-- Origin of every operation in a replicate trace: a session-free put of a
non-excluded observed pair above the checkpoint, a delete of a listed
non-excluded destination key, or the status checkpoint write. -/
lemma mem_replicate_ops (d : String) (pfx : PrefixConfig)
    (excludes : List ExcludeConfig) (env : Env) (op : KVOp)
    (h : op ∈ (replicate d pfx excludes env).1) :
    (∃ pairs lastIndex st, env.view = some (pairs, lastIndex) ∧
      getStatus env.statusGet = .ok (some st) ∧
      ∃ p, p ∈ pairs ∧ excludedWrite excludes p.path = false ∧
        st.lastReplicated < p.modifyIndex ∧
        op = KVOp.put (rewriteKey pfx p.path) p.value p.flags "") ∨
    (∃ keys k, env.keysList = .ok keys ∧ k ∈ keys ∧
      excludedDelete excludes pfx k = false ∧ op = KVOp.del k) ∨
    (∃ st, op = KVOp.putStatus (statusPath d pfx) st) := by
  rcases hag : env.agentSelf with e | dc
  · rw [replicate_eval_agentErr hag] at h; simp at h
  · by_cases hdc : dc = pfx.datacenter
    · rw [replicate_eval_self hag hdc] at h; simp at h
    · rcases hst : getStatus env.statusGet with e | stOpt
      · rw [replicate_eval_statusErr hag hdc hst] at h; simp at h
      · rcases hview : env.view with _ | ⟨pairs, lastIndex⟩
        · rw [replicate_eval_noview hag hdc hst hview] at h; simp at h
        · rcases hru : runUpdates pfx excludes stOpt env.putOk pairs [] with
            ⟨used, uOps, ab⟩
          rcases ab with _ | ab
          · rcases hkeys : env.keysList with e | localKeys
            · rw [replicate_eval_keysErr hag hdc hst hview hru hkeys] at h
              obtain ⟨p, hp, st, hstOpt, h1, h2, h3⟩ := runUpdates_put_origin hru h
              exact Or.inl ⟨pairs, lastIndex, st, rfl, by rw [hstOpt], p, hp, h1, h2, h3⟩
            · rcases hrd : runDeletes excludes pfx env.deleteOk used localKeys with
                ⟨dOps, dab⟩
              rcases dab with _ | k
              · rcases stOpt with _ | st
                · rw [replicate_eval_crashNil hag hdc hst hview hru hkeys hrd] at h
                  rcases List.mem_append.mp h with hu | hdop
                  · obtain ⟨p, hp, st, hstOpt, h1, h2, h3⟩ :=
                      runUpdates_put_origin hru hu
                    exact absurd hstOpt (by simp)
                  · obtain ⟨k2, hk2, _, hexcF, heq⟩ := runDeletes_del_origin hrd hdop
                    exact Or.inr (Or.inl ⟨localKeys, k2, rfl, hk2, hexcF, heq⟩)
                · rw [replicate_eval_final hag hdc hst hview hru hkeys hrd] at h
                  rcases List.mem_append.mp h with hud | hs
                  · rcases List.mem_append.mp hud with hu | hdop
                    · obtain ⟨p, hp, st2, hstOpt, h1, h2, h3⟩ :=
                        runUpdates_put_origin hru hu
                      exact Or.inl ⟨pairs, lastIndex, st2, rfl, by rw [hstOpt],
                        p, hp, h1, h2, h3⟩
                    · obtain ⟨k2, hk2, _, hexcF, heq⟩ := runDeletes_del_origin hrd hdop
                      exact Or.inr (Or.inl ⟨localKeys, k2, rfl, hk2, hexcF, heq⟩)
                  · exact Or.inr (Or.inr ⟨_, List.mem_singleton.mp hs⟩)
              · rw [replicate_eval_delAbort hag hdc hst hview hru hkeys hrd] at h
                rcases List.mem_append.mp h with hu | hdop
                · obtain ⟨p, hp, st, hstOpt, h1, h2, h3⟩ := runUpdates_put_origin hru hu
                  exact Or.inl ⟨pairs, lastIndex, st, rfl, by rw [hstOpt],
                    p, hp, h1, h2, h3⟩
                · obtain ⟨k2, hk2, _, hexcF, heq⟩ := runDeletes_del_origin hrd hdop
                  exact Or.inr (Or.inl ⟨localKeys, k2, rfl, hk2, hexcF, heq⟩)
          · rcases ab with k | _
            · rw [replicate_eval_updWrite hag hdc hst hview hru] at h
              obtain ⟨p, hp, st, hstOpt, h1, h2, h3⟩ := runUpdates_put_origin hru h
              exact Or.inl ⟨pairs, lastIndex, st, rfl, by rw [hstOpt], p, hp, h1, h2, h3⟩
            · rw [replicate_eval_updNil hag hdc hst hview hru] at h
              obtain ⟨p, hp, st, hstOpt, h1, h2, h3⟩ := runUpdates_put_origin hru h
              exact Or.inl ⟨pairs, lastIndex, st, rfl, by rw [hstOpt], p, hp, h1, h2, h3⟩

/-- Shape of a successful replicate call that had a view: the status was
read to a non-nil value, neither loop aborted, the checkpoint write
succeeded, and the trace is the update puts, then the deletes, then one
status write carrying the observed index. -/
lemma replicate_done_shape (d : String) (pfx : PrefixConfig)
    (excludes : List ExcludeConfig) (env : Env) (pairs : List KeyPair)
    (lastIndex : Nat) (hview : env.view = some (pairs, lastIndex))
    (hdone : (replicate d pfx excludes env).2 = .done) :
    ∃ st used uOps keys dOps,
      getStatus env.statusGet = .ok (some st) ∧
      runUpdates pfx excludes (some st) env.putOk pairs [] = (used, uOps, none) ∧
      env.keysList = .ok keys ∧
      runDeletes excludes pfx env.deleteOk used keys = (dOps, none) ∧
      env.statusPutOk = true ∧
      (replicate d pfx excludes env).1 =
        uOps ++ dOps ++ [KVOp.putStatus (statusPath d pfx)
          { lastReplicated := lastIndex, source := pfx.source,
            destination := pfx.destination }] := by
  rcases hag : env.agentSelf with e | dc
  · rw [replicate_eval_agentErr hag] at hdone; simp at hdone
  · by_cases hdc : dc = pfx.datacenter
    · rw [replicate_eval_self hag hdc] at hdone; simp at hdone
    · rcases hst : getStatus env.statusGet with e | stOpt
      · rw [replicate_eval_statusErr hag hdc hst] at hdone; simp at hdone
      · rcases hru : runUpdates pfx excludes stOpt env.putOk pairs [] with
          ⟨used, uOps, ab⟩
        rcases ab with _ | ab
        · rcases hkeys : env.keysList with e | localKeys
          · rw [replicate_eval_keysErr hag hdc hst hview hru hkeys] at hdone
            simp at hdone
          · rcases hrd : runDeletes excludes pfx env.deleteOk used localKeys with
              ⟨dOps, dab⟩
            rcases dab with _ | k
            · rcases stOpt with _ | st
              · rw [replicate_eval_crashNil hag hdc hst hview hru hkeys hrd] at hdone
                simp at hdone
              · have hfin := replicate_eval_final (d := d)
                  hag hdc hst hview hru hkeys hrd
                by_cases hck : env.statusPutOk = true
                · refine ⟨st, used, uOps, localKeys, dOps, rfl, hru, rfl, hrd,
                    hck, ?_⟩
                  rw [hfin]
                · rw [hfin] at hdone
                  rw [if_neg hck] at hdone
                  simp at hdone
            · rw [replicate_eval_delAbort hag hdc hst hview hru hkeys hrd] at hdone
              simp at hdone
        · rcases ab with k | _
          · rw [replicate_eval_updWrite hag hdc hst hview hru] at hdone
            simp at hdone
          · rw [replicate_eval_updNil hag hdc hst hview hru] at hdone
            simp at hdone

/-! Claim theorems. -/

/-- C2: for every prefix whose configured datacenter equals the local
agent's datacenter, the replicate call fails with the self-replication
error and issues no KV writes, no deletes and no status checkpoint (the
trace is empty). -/
theorem c2_self_replication_refusal (statusDir : String) (pfx : PrefixConfig)
    (excludes : List ExcludeConfig) (env : Env) (dc : String)
    (hagent : env.agentSelf = .ok dc) (hdc : pfx.datacenter = dc) :
    replicate statusDir pfx excludes env = ([], .fail .selfReplication) :=
  replicate_eval_self hagent hdc.symm

/-- C2 witness: the guard fires on a concrete prefix whose datacenter
matches the local agent's. -/
theorem c2_self_replication_refusal_witness :
    replicate "service/consul-replicate/statuses"
      { source := "global/", datacenter := "dc1", destination := "backup/" } []
      { agentSelf := .ok "dc1", statusGet := .ok none, view := none,
        keysList := .ok [], putOk := fun _ => true, deleteOk := fun _ => true,
        statusPutOk := true } = ([], .fail .selfReplication) :=
  c2_self_replication_refusal _ _ _ _ "dc1" rfl rfl

/-- C8: with either wait bound zero, a data event arms no quiescence timer
and a Run executes immediately; with both non-zero, a data event (re)arms
the min timer, arms the max timer only when it is not armed, and no Run
executes until one of the timers fires (timer fire events need an armed
timer, clear both timers and execute a Run). -/
theorem c8_quiescence_gate :
    (∀ wMin wMax now : Nat, ∀ s : TimerState, (wMin = 0 ∨ wMax = 0) →
      stepDataEvent wMin wMax now s = (s, true)) ∧
    (∀ wMin wMax now : Nat, ∀ s : TimerState, wMin ≠ 0 → wMax ≠ 0 →
      (stepDataEvent wMin wMax now s).1.minDeadline = some (now + wMin) ∧
      (s.maxDeadline = none →
        (stepDataEvent wMin wMax now s).1.maxDeadline = some (now + wMax)) ∧
      (∀ dl, s.maxDeadline = some dl →
        (stepDataEvent wMin wMax now s).1.maxDeadline = some dl) ∧
      (stepDataEvent wMin wMax now s).2 = false) ∧
    (∀ s : TimerState, s.minDeadline = none → stepMinTimer s = none) ∧
    (∀ s : TimerState, ∀ dl, s.minDeadline = some dl →
      stepMinTimer s = some ({ minDeadline := none, maxDeadline := none }, true)) ∧
    (∀ s : TimerState, s.maxDeadline = none → stepMaxTimer s = none) ∧
    (∀ s : TimerState, ∀ dl, s.maxDeadline = some dl →
      stepMaxTimer s = some ({ minDeadline := none, maxDeadline := none }, true)) := by
  refine ⟨?_, ?_, ?_, ?_, ?_, ?_⟩
  · intro wMin wMax now s h
    unfold stepDataEvent
    rcases h with h | h <;> simp [h]
  · intro wMin wMax now s h1 h2
    unfold stepDataEvent
    rw [if_pos ⟨h1, h2⟩]
    refine ⟨rfl, ?_, ?_, rfl⟩
    · intro h; rw [h]
    · intro dl h; rw [h]
  · intro s h; unfold stepMinTimer; rw [h]
  · intro s dl h; unfold stepMinTimer; rw [h]
  · intro s h; unfold stepMaxTimer; rw [h]
  · intro s dl h; unfold stepMaxTimer; rw [h]

/-- C8 witness: the gate behavior at concrete wait bounds (disabled at
min 0; armed and silent at min 150, max 400 with the max timer already
armed and preserved; an armed min timer fires into a Run). -/
theorem c8_quiescence_gate_witness :
    stepDataEvent 0 400 10 { minDeadline := none, maxDeadline := none } =
      ({ minDeadline := none, maxDeadline := none }, true) ∧
    (stepDataEvent 150 400 10 { minDeadline := none, maxDeadline := some 20 }).2 =
      false ∧
    (stepDataEvent 150 400 10 { minDeadline := none, maxDeadline := some 20 }).1.maxDeadline =
      some 20 ∧
    stepMinTimer { minDeadline := some 160, maxDeadline := some 20 } =
      some ({ minDeadline := none, maxDeadline := none }, true) :=
  ⟨c8_quiescence_gate.1 0 400 10 _ (Or.inl rfl),
   (c8_quiescence_gate.2.1 150 400 10 _ (by decide) (by decide)).2.2.2,
   (c8_quiescence_gate.2.1 150 400 10 _ (by decide) (by decide)).2.2.1 20 rfl,
   c8_quiescence_gate.2.2.2.1 _ 160 rfl⟩

/-- C9: the values the exit-code const block actually carries.  Because
`iota` is already 1 at the `ExitCodeError` ConstSpec, the error codes are
11 through 15, not the documented 10 through 14; a flag-parse failure, for
example, makes `CLI.Run` return 13, not 12. -/
theorem c9_exit_codes_actual :
    ExitCodeOK = 0 ∧ ExitCodeError = 11 ∧ ExitCodeInterrupt = 12 ∧
    ExitCodeParseFlagsError = 13 ∧ ExitCodeRunnerError = 14 ∧
    ExitCodeConfigError = 15 ∧
    cliExitCode .flagParseFailed = 13 ∧ cliExitCode .flagParseFailed ≠ 12 ∧
    cliExitCode .killSignalReceived = 12 ∧
    cliExitCode (.runnerErrorReported none) = 14 ∧
    cliExitCode .configLoadFailed = 15 ∧
    cliExitCode .runnerDone = 0 := by decide

/-- C10: the status-path encoding is not injective over prefix specs: the
distinct specs (source "a-b", destination "c") and (source "a",
destination "b-c") concatenate to the same hashed plain text "a-b-c" and
therefore share the same status path under every status directory. -/
theorem c10_status_path_collision :
    ({ source := "a-b", datacenter := "dc1", destination := "c" } : PrefixConfig) ≠
      { source := "a", datacenter := "dc1", destination := "b-c" } ∧
    ∀ statusDir : String,
      statusPath statusDir
        { source := "a-b", datacenter := "dc1", destination := "c" } =
      statusPath statusDir
        { source := "a", datacenter := "dc1", destination := "b-c" } := by
  constructor
  · decide
  · intro statusDir
    unfold statusPath
    have h : statusPlain { source := "a-b", datacenter := "dc1", destination := "c" } =
        statusPlain { source := "a", datacenter := "dc1", destination := "b-c" } := by
      decide
    rw [h]

/-- C1: for every exclude-source in the exclude list and every observed
pair whose path has it as a string prefix, a replicate call issues no data
PUT at that pair's destination rewrite, and issues no DELETE of any
destination key whose source-side reconstruction (as the delete loop
computes it) has the exclude-source as a string prefix.  The hypothesis
that every observed path carries the source prefix reflects that the view
is a Consul listing under that prefix. -/
theorem c1_exclude_symmetry (statusDir : String) (pfx : PrefixConfig)
    (excludes : List ExcludeConfig) (env : Env)
    (exc : ExcludeConfig) (hexc : exc ∈ excludes)
    (pairs : List KeyPair) (lastIndex : Nat)
    (hview : env.view = some (pairs, lastIndex))
    (hsrc : ∀ p ∈ pairs, goHasPref p.path pfx.source = true)
    (k : KeyPair) (hk : k ∈ pairs)
    (hkE : goHasPref k.path exc.source = true) :
    (∀ v f sess, KVOp.put (rewriteKey pfx k.path) v f sess ∉
      (replicate statusDir pfx excludes env).1) ∧
    (∀ dkey, goHasPref (sourceSideKey pfx dkey) exc.source = true →
      KVOp.del dkey ∉ (replicate statusDir pfx excludes env).1) := by
  constructor
  · intro v f sess hmem
    rcases mem_replicate_ops _ _ _ _ _ hmem with
      ⟨pairs2, li2, st, hv2, _, p, hp, hexcF, _, heq⟩ |
      ⟨_, _, _, _, _, heq⟩ | ⟨_, heq⟩
    · have hpq := Option.some.inj (hview.symm.trans hv2)
      have hpairs : pairs2 = pairs := (congrArg Prod.fst hpq).symm
      subst hpairs
      injection heq with hkeyeq hveq hfeq hseq
      have hpath := rewriteKey_inj pfx k.path p.path (hsrc k hk) (hsrc p hp) hkeyeq
      have hcontra : excludedWrite excludes p.path = true := by
        unfold excludedWrite
        refine List.any_eq_true.mpr ⟨exc, hexc, ?_⟩
        rw [← hpath]; exact hkE
      rw [hexcF] at hcontra
      exact Bool.noConfusion hcontra
    · exact KVOp.noConfusion heq
    · exact KVOp.noConfusion heq
  · intro dkey hds hmem
    rcases mem_replicate_ops _ _ _ _ _ hmem with
      ⟨_, _, _, _, _, _, _, _, _, heq⟩ |
      ⟨keys2, k2, hkeys, hk2, hexcF, heq⟩ | ⟨_, heq⟩
    · exact KVOp.noConfusion heq
    · injection heq with hdk
      subst hdk
      have hcontra : excludedDelete excludes pfx dkey = true := by
        unfold excludedDelete
        exact List.any_eq_true.mpr ⟨exc, hexc, hds⟩
      rw [hexcF] at hcontra
      exact Bool.noConfusion hcontra
    · exact KVOp.noConfusion heq

/-- Concrete prefix used by the C1 witness. -/
def c1Pfx : PrefixConfig :=
  { source := "a/", datacenter := "dc1", destination := "b/" }

/-- Concrete observed pairs used by the C1 witness: one pair under the
excluded subtree, one outside it. -/
def c1Pairs : List KeyPair :=
  [{ path := "a/sec/x", value := "v", flags := 0, modifyIndex := 5, session := "" },
   { path := "a/pub", value := "w", flags := 7, modifyIndex := 6, session := "" }]

/-- Concrete environment used by the C1 witness: the destination already
holds the excluded key's rewrite, which must survive delete
reconciliation. -/
def c1Env : Env :=
  { agentSelf := .ok "dc2", statusGet := .ok none,
    view := some (c1Pairs, 6),
    keysList := .ok ["b/pub", "b/sec/x", "b/stale"],
    putOk := fun _ => true, deleteOk := fun _ => true, statusPutOk := true }

/-- C1 witness: at a concrete excluded pair, its rewrite "b/sec/x" is
neither written nor deleted by the run. -/
theorem c1_exclude_symmetry_witness :
    KVOp.put (rewriteKey c1Pfx "a/sec/x") "v" 0 "" ∉
      (replicate "dir" c1Pfx [{ source := "a/sec" }] c1Env).1 ∧
    KVOp.del "b/sec/x" ∉
      (replicate "dir" c1Pfx [{ source := "a/sec" }] c1Env).1 := by
  have h := c1_exclude_symmetry "dir" c1Pfx [{ source := "a/sec" }] c1Env
    { source := "a/sec" } (by decide) c1Pairs 6 rfl (by decide)
    { path := "a/sec/x", value := "v", flags := 0, modifyIndex := 5, session := "" }
    (by decide) (by decide)
  exact ⟨h.1 "v" 0 "", h.2 "b/sec/x" (by decide)⟩

/-- C7: for a non-excluded observed pair above the checkpoint (with the
view being a listing under the source prefix with distinct paths), any
data PUT issued at that pair's destination rewrite carries exactly the
pair's value and flags and an empty session, and when the run reports done
that PUT was indeed issued. -/
theorem c7_put_wire_contract (statusDir : String) (pfx : PrefixConfig)
    (excludes : List ExcludeConfig) (env : Env)
    (pairs : List KeyPair) (lastIndex : Nat) (st : Status) (q : KeyPair)
    (hview : env.view = some (pairs, lastIndex))
    (hst : getStatus env.statusGet = .ok (some st))
    (hsrc : ∀ p ∈ pairs, goHasPref p.path pfx.source = true)
    (hnodup : (pairs.map KeyPair.path).Nodup)
    (hq : q ∈ pairs) (hqexc : excludedWrite excludes q.path = false)
    (hqidx : st.lastReplicated < q.modifyIndex) :
    (∀ v f sess, KVOp.put (rewriteKey pfx q.path) v f sess ∈
        (replicate statusDir pfx excludes env).1 →
      v = q.value ∧ f = q.flags ∧ sess = "") ∧
    ((replicate statusDir pfx excludes env).2 = .done →
      KVOp.put (rewriteKey pfx q.path) q.value q.flags "" ∈
        (replicate statusDir pfx excludes env).1) := by
  constructor
  · intro v f sess hmem
    rcases mem_replicate_ops _ _ _ _ _ hmem with
      ⟨pairs2, li2, st2, hv2, hst2, p, hp, hexcF, hlt, heq⟩ |
      ⟨_, _, _, _, _, heq⟩ | ⟨_, heq⟩
    · have hpq := Option.some.inj (hview.symm.trans hv2)
      have hpairs : pairs2 = pairs := (congrArg Prod.fst hpq).symm
      subst hpairs
      injection heq with hkeyeq hveq hfeq hseq
      have hpath := rewriteKey_inj pfx q.path p.path (hsrc q hq) (hsrc p hp) hkeyeq
      have hqp : q = p := List.inj_on_of_nodup_map hnodup hq hp hpath
      exact ⟨by rw [hveq, ← hqp], by rw [hfeq, ← hqp], hseq⟩
    · exact KVOp.noConfusion heq
    · exact KVOp.noConfusion heq
  · intro hdone
    obtain ⟨st2, used, uOps, keys, dOps, hst2, hru, hkeys, hrd, hck, htrace⟩ :=
      replicate_done_shape _ _ _ _ _ _ hview hdone
    have hst3 : st2 = st := by
      have h0 := hst.symm.trans hst2
      exact (Option.some.inj (Except.ok.inj h0)).symm
    rw [hst3] at hru
    have hput := runUpdates_complete pfx excludes st env.putOk pairs []
      (by rw [hru]) q hq hqexc hqidx
    rw [htrace]
    refine List.mem_append.mpr (Or.inl (List.mem_append.mpr (Or.inl ?_)))
    rw [hru] at hput
    exact hput

/-- Concrete pair used by the C7 witness: flags 7 and an attached session,
above the fresh checkpoint. -/
def c7Pair : KeyPair :=
  { path := "a/pub", value := "w", flags := 7, modifyIndex := 6, session := "sess" }

/-- Concrete environment used by the C7 witness. -/
def c7Env : Env :=
  { agentSelf := .ok "dc2", statusGet := .ok none,
    view := some ([c7Pair], 6),
    keysList := .ok [], putOk := fun _ => true, deleteOk := fun _ => true,
    statusPutOk := true }

/-- C7 witness: the concrete done run issues the session-free PUT carrying
the pair's value and flags. -/
theorem c7_put_wire_contract_witness :
    KVOp.put (rewriteKey c1Pfx "a/pub") "w" 7 "" ∈
      (replicate "dir" c1Pfx [] c7Env).1 :=
  (c7_put_wire_contract "dir" c1Pfx [] c7Env [c7Pair] 6 freshStatus c7Pair
    rfl rfl (by decide) (by decide) (by decide) (by decide) (by decide)).2
    (by decide)

/-- C3 (amended): a successful run that had a view persists exactly one
checkpoint, equal to the observed view index; hence across two such runs
the persisted checkpoint is monotone exactly when the observed indices
are. -/
theorem c3_checkpoint_is_observed_index (statusDir : String)
    (pfx : PrefixConfig) (excludes : List ExcludeConfig) (env1 env2 : Env)
    (pairs1 pairs2 : List KeyPair) (i1 i2 : Nat)
    (hv1 : env1.view = some (pairs1, i1))
    (hd1 : (replicate statusDir pfx excludes env1).2 = .done)
    (hv2 : env2.view = some (pairs2, i2))
    (hd2 : (replicate statusDir pfx excludes env2).2 = .done)
    (hle : i1 ≤ i2) :
    checkpointsIn (replicate statusDir pfx excludes env1).1 = [i1] ∧
    checkpointsIn (replicate statusDir pfx excludes env2).1 = [i2] ∧
    ∀ c1 ∈ checkpointsIn (replicate statusDir pfx excludes env1).1,
      ∀ c2 ∈ checkpointsIn (replicate statusDir pfx excludes env2).1,
        c1 ≤ c2 := by
  have key : ∀ (env : Env) (pairs : List KeyPair) (i : Nat),
      env.view = some (pairs, i) →
      (replicate statusDir pfx excludes env).2 = .done →
      checkpointsIn (replicate statusDir pfx excludes env).1 = [i] := by
    intro env pairs i hv hd
    obtain ⟨st, used, uOps, keys, dOps, hst, hru, hkeys, hrd, hck, htrace⟩ :=
      replicate_done_shape _ _ _ _ _ _ hv hd
    rw [htrace]
    unfold checkpointsIn
    rw [List.filterMap_append, List.filterMap_append]
    have hu : uOps.filterMap ckptProj = [] := List.filterMap_eq_nil_iff.mpr (by
      intro a ha
      obtain ⟨p, _, st2, _, _, _, heq⟩ := runUpdates_put_origin hru ha
      rw [heq]; rfl)
    have hdl : dOps.filterMap ckptProj = [] := List.filterMap_eq_nil_iff.mpr (by
      intro a ha
      obtain ⟨k2, _, _, _, heq⟩ := runDeletes_del_origin hrd ha
      rw [heq]; rfl)
    rw [hu, hdl]
    rfl
  have h1 := key env1 pairs1 i1 hv1 hd1
  have h2 := key env2 pairs2 i2 hv2 hd2
  refine ⟨h1, h2, ?_⟩
  intro c1 hc1 c2 hc2
  rw [h1] at hc1
  rw [h2] at hc2
  rw [List.mem_singleton.mp hc1, List.mem_singleton.mp hc2]
  exact hle

/-- Concrete prefix used for the C3 runs. -/
def c3Pfx : PrefixConfig :=
  { source := "a/", datacenter := "dc1", destination := "b/" }

/-- C3 first run: an empty view at index 5, no prior status record. -/
def c3EnvA : Env :=
  { agentSelf := .ok "dc2", statusGet := .ok none, view := some ([], 5),
    keysList := .ok [], putOk := fun _ => true, deleteOk := fun _ => true,
    statusPutOk := true }

/-- C3 second run: reads the pretty-printed status the first run wrote
(checkpoint 5) but observes the lower view index 3. -/
def c3EnvB : Env :=
  { agentSelf := .ok "dc2",
    statusGet := .ok (some (marshalStatus
      { lastReplicated := 5, source := "a/", destination := "b/" })),
    view := some ([], 3),
    keysList := .ok [], putOk := fun _ => true, deleteOk := fun _ => true,
    statusPutOk := true }

/-- C3 alternative second run: same stored status, view index 9. -/
def c3EnvC : Env :=
  { agentSelf := .ok "dc2",
    statusGet := .ok (some (marshalStatus
      { lastReplicated := 5, source := "a/", destination := "b/" })),
    view := some ([], 9),
    keysList := .ok [], putOk := fun _ => true, deleteOk := fun _ => true,
    statusPutOk := true }

/-- C3 counterexample to the claim as stated: two successive successful
runs of the same prefix, the second reading the very status record the
first persisted, where the later run writes checkpoint 3 after the earlier
wrote 5 — the later run lowers the checkpoint. -/
theorem c3_counterexample :
    (replicate "dir" c3Pfx [] c3EnvA).2 = .done ∧
    (replicate "dir" c3Pfx [] c3EnvB).2 = .done ∧
    checkpointsIn (replicate "dir" c3Pfx [] c3EnvA).1 = [5] ∧
    checkpointsIn (replicate "dir" c3Pfx [] c3EnvB).1 = [3] ∧
    ¬(5 : Nat) ≤ 3 := by decide

/-- C3 witness: the amended theorem at two concrete successful runs with
observed indices 5 and then 9. -/
theorem c3_checkpoint_is_observed_index_witness :
    checkpointsIn (replicate "dir" c3Pfx [] c3EnvA).1 = [5] ∧
    checkpointsIn (replicate "dir" c3Pfx [] c3EnvC).1 = [9] ∧
    ∀ c1 ∈ checkpointsIn (replicate "dir" c3Pfx [] c3EnvA).1,
      ∀ c2 ∈ checkpointsIn (replicate "dir" c3Pfx [] c3EnvC).1, c1 ≤ c2 :=
  c3_checkpoint_is_observed_index "dir" c3Pfx [] c3EnvA c3EnvC [] [] 5 9
    rfl (by decide) rfl (by decide) (by decide)

/-- C4 (amended): when the agent and status reads succeed, a view is
present, every data PUT and DELETE succeeds, but the final status write
fails, the replicate call reports the checkpoint-failure error on its
error channel instead of done. -/
theorem c4_checkpoint_failure_fails_run (statusDir : String)
    (pfx : PrefixConfig) (excludes : List ExcludeConfig) (env : Env)
    (dc : String) (st : Status) (pairs : List KeyPair) (lastIndex : Nat)
    (keys : List String)
    (hagent : env.agentSelf = .ok dc) (hdc : ¬dc = pfx.datacenter)
    (hst : getStatus env.statusGet = .ok (some st))
    (hview : env.view = some (pairs, lastIndex))
    (hput : ∀ k2, env.putOk k2 = true)
    (hkeys : env.keysList = .ok keys)
    (hdel : ∀ k2, env.deleteOk k2 = true)
    (hck : env.statusPutOk = false) :
    (replicate statusDir pfx excludes env).2 = .fail .checkpointFailed := by
  have habort := runUpdates_no_abort pfx excludes st env.putOk hput pairs []
  rcases hru : runUpdates pfx excludes (some st) env.putOk pairs [] with
    ⟨used, uOps, ab⟩
  rw [hru] at habort
  have hab : ab = none := habort
  subst hab
  have hrdn := runDeletes_no_abort excludes pfx env.deleteOk hdel used keys
  rcases hrd : runDeletes excludes pfx env.deleteOk used keys with ⟨dOps, dab⟩
  rw [hrd] at hrdn
  have hdab : dab = none := hrdn
  subst hdab
  have hfin := replicate_eval_final (d := statusDir) hagent hdc hst hview hru
    hkeys hrd
  rw [hfin, hck]
  rfl

/-- Concrete environment for C4: one fresh pair to put, one stale
destination key to delete, both succeeding, and a failing status write. -/
def c4Env : Env :=
  { agentSelf := .ok "dc2", statusGet := .ok none,
    view := some ([{ path := "a/x", value := "v", flags := 0,
                     modifyIndex := 2, session := "" }], 2),
    keysList := .ok ["b/stale"],
    putOk := fun _ => true, deleteOk := fun _ => true, statusPutOk := false }

/-- C4 counterexample to the claim as stated: in a concrete run whose only
failure is the final status write, the data PUT and DELETE were issued, yet
the run reports the checkpoint error rather than done. -/
theorem c4_counterexample :
    KVOp.put "b/x" "v" 0 "" ∈ (replicate "dir" c3Pfx [] c4Env).1 ∧
    KVOp.del "b/stale" ∈ (replicate "dir" c3Pfx [] c4Env).1 ∧
    (replicate "dir" c3Pfx [] c4Env).2 = .fail .checkpointFailed ∧
    (replicate "dir" c3Pfx [] c4Env).2 ≠ .done := by decide

/-- C4 witness: the amended theorem at the concrete environment. -/
theorem c4_checkpoint_failure_fails_run_witness :
    (replicate "dir" c3Pfx [] c4Env).2 = .fail .checkpointFailed :=
  c4_checkpoint_failure_fails_run "dir" c3Pfx [] c4Env "dc2" freshStatus
    [{ path := "a/x", value := "v", flags := 0, modifyIndex := 2,
       session := "" }] 2 ["b/stale"]
    rfl (by decide) rfl rfl (fun _ => rfl) rfl (fun _ => rfl) rfl

/-- C5 (amended): when a Run pass returns an accumulated error (which is
exactly when some replicate call failed, self-replication or not), the
Start event loop sends that error and terminates; it does not continue
looping. -/
theorem c5_run_error_terminates_loop (statusDir : String)
    (excludes : List ExcludeConfig) (jobs : List (PrefixConfig × Env))
    (once : Bool) (errs : List RepErr)
    (h : runPass statusDir excludes jobs = some errs) :
    startAfterRun once (runPass statusDir excludes jobs) =
      .terminatedWithError errs ∧ errs ≠ [] := by
  refine ⟨by rw [h]; rfl, ?_⟩
  unfold runPass at h
  by_cases he : (collectRunErrors statusDir excludes jobs).isEmpty = true
  · rw [if_pos he] at h
    exact absurd h (by simp)
  · rw [if_neg he] at h
    obtain rfl := Option.some.inj h
    intro hnil
    exact he (by rw [hnil]; rfl)

/-- Concrete single-prefix job for C5: the destination PUT of "b/x" fails,
so the replicate call reports a write error. -/
def c5Jobs : List (PrefixConfig × Env) :=
  [(c3Pfx,
    { agentSelf := .ok "dc2", statusGet := .ok none,
      view := some ([{ path := "a/x", value := "v", flags := 0,
                       modifyIndex := 10, session := "" }], 10),
      keysList := .ok [], putOk := fun _ => false, deleteOk := fun _ => true,
      statusPutOk := true })]

/-- C5 counterexample to the claim as stated: a Run whose only error is an
ordinary write failure (not the self-replication guard) still terminates
the event loop. -/
theorem c5_counterexample :
    runPass "dir" [] c5Jobs = some [RepErr.writeFailed "b/x"] ∧
    startAfterRun false (runPass "dir" [] c5Jobs) ≠ .continueLoop ∧
    RepErr.writeFailed "b/x" ≠ RepErr.selfReplication := by decide

/-- C5 witness: the amended theorem at the concrete failing job list. -/
theorem c5_run_error_terminates_loop_witness :
    startAfterRun false (runPass "dir" [] c5Jobs) =
      .terminatedWithError [RepErr.writeFailed "b/x"] ∧
    ([RepErr.writeFailed "b/x"] : List RepErr) ≠ [] :=
  c5_run_error_terminates_loop "dir" [] c5Jobs false [RepErr.writeFailed "b/x"]
    (by decide)

/-- C6 (amended): a missing status record reads as the fresh zero status,
but a stored record whose bytes fail to unmarshal makes the status read
return the decode error, and the run fails with the status-read error
having issued no operations — it does not proceed as if the record were
absent. -/
theorem c6_malformed_status_fails_run (statusDir : String)
    (pfx : PrefixConfig) (excludes : List ExcludeConfig) (env : Env)
    (dc bytes e : String)
    (hagent : env.agentSelf = .ok dc) (hdc : ¬dc = pfx.datacenter)
    (hbytes : env.statusGet = .ok (some bytes))
    (hbad : unmarshalStatus bytes = .error e) :
    getStatus (.ok none) = .ok (some freshStatus) ∧
    getStatus env.statusGet = .error e ∧
    replicate statusDir pfx excludes env = ([], .fail (.statusReadFailed e)) := by
  have hge : getStatus env.statusGet = .error e := by
    rw [hbytes]
    exact hbad
  exact ⟨rfl, hge, replicate_eval_statusErr hagent hdc hge⟩

/-- Concrete environment for C6: the stored status bytes are not JSON. -/
def c6Env : Env :=
  { agentSelf := .ok "dc2", statusGet := .ok (some "not json"),
    view := some ([], 3), keysList := .ok [],
    putOk := fun _ => true, deleteOk := fun _ => true, statusPutOk := true }

/-- C6 counterexample to the claim as stated: with stored bytes "not json"
the status read returns an error and the run fails, while only a missing
record yields the fresh zero status. -/
theorem c6_counterexample :
    getStatus (.ok (some "not json")) =
      .error "invalid character in status JSON" ∧
    getStatus (.ok none) =
      .ok (some { lastReplicated := 0, source := "", destination := "" }) ∧
    replicate "dir" c3Pfx [] c6Env =
      ([], .fail (.statusReadFailed "invalid character in status JSON")) := by
  decide

/-- C6 witness: the amended theorem at the concrete malformed bytes. -/
theorem c6_malformed_status_fails_run_witness :
    getStatus (.ok none) = .ok (some freshStatus) ∧
    getStatus c6Env.statusGet = .error "invalid character in status JSON" ∧
    replicate "dir" c3Pfx [] c6Env =
      ([], .fail (.statusReadFailed "invalid character in status JSON")) :=
  c6_malformed_status_fails_run "dir" c3Pfx [] c6Env "dc2" "not json"
    "invalid character in status JSON" rfl (by decide) rfl (by decide)

end ConsulReplicate
